import Mathlib

/-!
Verification of the complytime-policies tooling.

This file gives a shallow embedding of the two scripts of the repository:

* `tools/gemara-resolve-example.py` — the policy resolver: it merges a
  policy's control / assessment-requirement modifications onto base controls
  (`_apply_modifications`) and produces one resolved requirement record per
  assessment requirement (`resolve_assessment_requirements`).
* `tools/validate-control-files.py` — the cross-reference validator: it
  extracts `gemara://` URLs from architecture documents
  (`extract_gemara_urls`), looks each one up in the control-file corpus
  (`find_control_file`), structurally validates the artifact found
  (`validate_control_file`) and classifies the run by the accumulated
  error list (`main`).

JSON dictionaries are embedded as structures; a key read with Python's
`dict.get` (which may be absent) becomes an `Option` field, a key read by
direct indexing becomes a plain field.  File paths, console output and the
JSON parsing mechanics are outside the embedded core: the validator's corpus
is modelled as the list of already-parsed control documents (a file that
fails JSON parsing is skipped by `find_control_file`, hence simply absent
from the modelled corpus).
-/

namespace Gemara

/-! ### Data model of the resolver (`gemara-resolve-example.py`) -/

/-- One assessment requirement of a control, JSON shape
`{"id": ..., "text": ..., "applicability": [...]}`.  An absent
`applicability` key behaves exactly like `[]` at every read site
(`req.get("applicability", [])`), so it is modelled as a plain list. -/
structure AssessmentRequirement where
  id : String
  text : String
  applicability : List String
  deriving Repr, DecidableEq

/-- An entry of `assessment-requirement-modifications`.  The scripts read
`target-id` on every path that matters, so it is modelled as present;
`text` and `applicability` are read with `dict.get` and default, hence
`Option`. -/
structure AssessmentRequirementModification where
  targetId : String
  text : Option String
  applicability : Option (List String)
  deriving Repr, DecidableEq

/-- An entry of `control-modifications`: target control id plus optional
title/objective overrides. -/
structure ControlModification where
  targetId : String
  title : Option String
  objective : Option String
  deriving Repr, DecidableEq

/-- A base control as returned by `_get_base_control`. -/
structure BaseControl where
  id : String
  catalogId : String
  title : String
  objective : String
  assessmentRequirements : List AssessmentRequirement
  deriving Repr, DecidableEq

/-- One element of a policy's `control-references`. -/
structure ControlReference where
  referenceId : String
  controlModifications : List ControlModification
  assessmentRequirementModifications : List AssessmentRequirementModification
  deriving Repr, DecidableEq

/-- A Layer 3 policy: `metadata.id` plus `control-references`. -/
structure Policy where
  policyId : String
  controlReferences : List ControlReference
  deriving Repr, DecidableEq

/-- The record appended to `resolved_requirements` for every assessment
requirement of a resolved control (`resolve_assessment_requirements`,
lines 68–81 of the script). -/
structure ResolvedRequirement where
  requirementId : String
  controlId : String
  catalogId : String
  policyId : String
  text : String
  applicability : List String
  isModified : Bool
  baseRequirementId : String
  gemaraUrl : String
  baseUrl : String
  controlTitle : String
  controlObjective : String
  deriving Repr, DecidableEq

/-! ### The resolver -/

/-- The requirement built when a base requirement matches a modification:
`{"id": mod.get("target-id", req_id), "text": mod.get("text", base_req["text"]),
"applicability": mod.get("applicability", base_req.get("applicability", []))}`. -/
def applyAssessmentMod (baseReq : AssessmentRequirement)
    (m : AssessmentRequirementModification) : AssessmentRequirement :=
  { id := m.targetId
    text := m.text.getD baseReq.text
    applicability := m.applicability.getD baseReq.applicability }

/-- Phase 1 of `_apply_modifications`: walk the base requirements in order;
the first modification whose `target-id` equals the base requirement's id
(Python's `next(... if am.get("target-id") == req_id ...)`) overrides it,
otherwise the base requirement is kept. -/
def resolveBaseRequirements (mods : List AssessmentRequirementModification)
    (baseReqs : List AssessmentRequirement) : List AssessmentRequirement :=
  baseReqs.map fun baseReq =>
    match mods.find? (fun am => am.targetId == baseReq.id) with
    | some m => applyAssessmentMod baseReq m
    | none => baseReq

/-- The brand-new requirement appended for a modification that matched no
existing requirement: missing text defaults to `""`, missing applicability
to `[]`. -/
def newRequirementOfMod (m : AssessmentRequirementModification) :
    AssessmentRequirement :=
  { id := m.targetId
    text := m.text.getD ""
    applicability := m.applicability.getD [] }

/-- Phase 2 of `_apply_modifications`: for each modification in list order,
append a new requirement unless some requirement **already in the resolved
list** (base requirements plus previously appended ones) carries its target
id — `if not any(req["id"] == mod.get("target-id") for req in resolved_reqs)`. -/
def addNewRequirements (resolvedReqs : List AssessmentRequirement) :
    List AssessmentRequirementModification → List AssessmentRequirement
  | [] => resolvedReqs
  | m :: ms =>
    if resolvedReqs.any (fun req => req.id == m.targetId) then
      addNewRequirements resolvedReqs ms
    else
      addNewRequirements (resolvedReqs ++ [newRequirementOfMod m]) ms

/-- `_apply_modifications`: copy the base control, override title/objective
when the override is present and non-empty (Python truthiness of
`control_mod.get("title")`), and replace the requirement list with the
two-phase merge. -/
def applyModifications (baseControl : BaseControl)
    (controlMod : ControlModification)
    (assessmentMods : List AssessmentRequirementModification) : BaseControl :=
  { id := baseControl.id
    catalogId := baseControl.catalogId
    title :=
      if controlMod.title.getD "" ≠ "" then controlMod.title.getD ""
      else baseControl.title
    objective :=
      if controlMod.objective.getD "" ≠ "" then controlMod.objective.getD ""
      else baseControl.objective
    assessmentRequirements :=
      addNewRequirements
        (resolveBaseRequirements assessmentMods baseControl.assessmentRequirements)
        assessmentMods }

/-- `_get_base_control`: the script's placeholder catalog lookup.  It always
returns a control with the single assessment requirement
`<control_id>.TR01`. -/
def getBaseControl (catalogId controlId : String) : BaseControl :=
  { id := controlId
    catalogId := catalogId
    title := "Base Control " ++ controlId
    objective := "Base control objective for " ++ controlId
    assessmentRequirements := [
      { id := controlId ++ ".TR01"
        text := "Base assessment requirement text"
        applicability := ["default"] }] }

/-- `canonicalUrl`: the f-string of line 78,
`gemara://policies/{policy_id}/controls/{control_id}/requirements/{requirement_id}`. -/
def canonicalUrl (policyId controlId requirementId : String) : String :=
  "gemara://policies/" ++ policyId ++ "/controls/" ++ controlId ++
    "/requirements/" ++ requirementId

/-- `baseUrl`: the f-string of line 79,
`gemara://controls/{catalog_id}/{control_id}/requirements/{requirement_id}`. -/
def baseUrl (catalogId controlId requirementId : String) : String :=
  "gemara://controls/" ++ catalogId ++ "/" ++ controlId ++
    "/requirements/" ++ requirementId

/-- Character-level scan behind `suffixAfterLastDot`: walk the characters,
restarting the accumulator after every dot; what remains at the end is the
part after the last dot (the whole string when there is none). -/
def suffixAux (cur : List Char) : List Char → List Char
  | [] => cur
  | c :: cs => if c = '.' then suffixAux [] cs else suffixAux (cur ++ [c]) cs

/-- `requirement_id.split('.')[-1]`: the part of the id after its last dot,
or the whole id when it contains no dot — exactly Python's
`str.split('.')[-1]`. -/
def suffixAfterLastDot (s : String) : String :=
  String.mk (suffixAux [] s.data)

/-- The dictionary appended to `resolved_requirements` for one assessment
requirement `req` of the resolved control (lines 63–81 of the script). -/
def resolvedRecordOf (policyId catalogId : String)
    (assessmentMods : List AssessmentRequirementModification)
    (controlMod : ControlModification) (resolvedControl : BaseControl)
    (req : AssessmentRequirement) : ResolvedRequirement :=
  let controlId := controlMod.targetId
  let isMod := assessmentMods.any (fun am => am.targetId == req.id)
  { requirementId := req.id
    controlId := controlId
    catalogId := catalogId
    policyId := policyId
    text := req.text
    applicability := req.applicability
    isModified := isMod
    baseRequirementId :=
      if isMod then controlId ++ "." ++ suffixAfterLastDot req.id else req.id
    gemaraUrl := canonicalUrl policyId controlId req.id
    baseUrl := baseUrl catalogId controlId req.id
    controlTitle := resolvedControl.title
    controlObjective := resolvedControl.objective }

/-- The body of the inner loop of `resolve_assessment_requirements` for one
control modification: fetch the base control through `provider`
(`_get_base_control` in the script), merge, and emit one record per
resolved assessment requirement. -/
def resolveControlMod (provider : String → String → BaseControl)
    (policyId catalogId : String)
    (assessmentMods : List AssessmentRequirementModification)
    (controlMod : ControlModification) : List ResolvedRequirement :=
  let baseControl := provider catalogId controlMod.targetId
  let resolvedControl := applyModifications baseControl controlMod assessmentMods
  resolvedControl.assessmentRequirements.map
    (resolvedRecordOf policyId catalogId assessmentMods controlMod
      resolvedControl)

/-- All records produced for one control reference: its control
modifications are processed in input order, each against the reference's
assessment-requirement modifications. -/
def resolveControlRef (provider : String → String → BaseControl)
    (policyId : String) (cr : ControlReference) : List ResolvedRequirement :=
  cr.controlModifications.flatMap
    (resolveControlMod provider policyId cr.referenceId
      cr.assessmentRequirementModifications)

/-- `resolve_assessment_requirements`, parametrised by the catalog lookup
(the script's `_get_base_control`; the spec's `CatalogProvider`). -/
def resolveAssessmentRequirementsWith
    (provider : String → String → BaseControl) (policy : Policy) :
    List ResolvedRequirement :=
  policy.controlReferences.flatMap (resolveControlRef provider policy.policyId)

/-- `resolve_assessment_requirements` exactly as the script runs it, with
the placeholder catalog lookup. -/
def resolveAssessmentRequirements (policy : Policy) : List ResolvedRequirement :=
  resolveAssessmentRequirementsWith getBaseControl policy

/-- The placeholder policy hard-coded in `main()` of the resolver script. -/
def examplePolicy (policyId : String) : Policy :=
  { policyId := policyId
    controlReferences := [
      { referenceId := "FINOS-CCC"
        controlModifications := [
          { targetId := "CCC.C01"
            title := some "Enhanced Encryption"
            objective := some "Enhanced encryption for cloud infrastructure" }]
        assessmentRequirementModifications := [
          { targetId := "CCC.C01.TR01"
            text := some "All HTTPS communications MUST use TLS 1.3 or higher"
            applicability := some ["default"] }] }] }

/-! ### Spec-side companion definitions for the merge

These follow the wording of the specification (and of the amended claim
about the append phase); they are compared with the source-derived
definitions above by the refinement theorems below. -/

/-- Spec-side description of the append phase: walking the modifications in
list order, a modification is appended as a new requirement exactly when its
target id is not among the ids seen so far — the base requirement ids plus
the target ids of modifications already appended. -/
def specAppendedRequirements (seen : List String) :
    List AssessmentRequirementModification → List AssessmentRequirement
  | [] => []
  | m :: ms =>
    if m.targetId ∈ seen then specAppendedRequirements seen ms
    else newRequirementOfMod m :: specAppendedRequirements (seen ++ [m.targetId]) ms

/-! ### Data model of the validator (`validate-control-files.py`) -/

/-- The `metadata.gemara` object of a control file, restricted to the keys
the validator reads.  `layer` and `policy-id` are read with `dict.get` (both
presence and value matter), the remaining keys only for presence. -/
structure GemaraMetadata where
  layer : Option String
  hasRequirementId : Bool
  hasSource : Bool
  hasApplicability : Bool
  policyId : Option String
  hasBaseRequirement : Bool
  hasCatalogId : Bool
  deriving Repr, DecidableEq

/-- The `metadata` object: the validator only reads its `gemara` key.
`gemara = none` models the key being absent **or** bound to an empty object
— Python's `if not gemara_meta` treats the two identically, and no other
read distinguishes them. -/
structure DocMetadata where
  gemara : Option GemaraMetadata
  deriving Repr, DecidableEq

/-- A parsed control requirement file, restricted to the keys the validator
reads: `$id` (`dict.get` with default `""`), presence of `control-id`,
and the `metadata` object. -/
structure ControlDoc where
  idField : Option String
  hasControlId : Bool
  metadata : Option DocMetadata
  deriving Repr, DecidableEq

/-- The error values returned by `validate_control_file` (one constructor
per distinct message string, carrying what the message interpolates). -/
inductive FileError where
  | idMismatch (expected found : String)
  | missingControlId
  | missingMetadata
  | missingGemara
  | missingRequirementId
  | missingSource
  | missingApplicability
  | layer3MissingPolicyId
  | layer3MissingBaseRequirement
  | layer2MissingCatalogId
  deriving Repr, DecidableEq

/-- The errors `main` accumulates: `Missing control file for {url}` and
`{control_file}: {error_msg}`. -/
inductive ValidationIssue where
  | missingControlFileFor (url : String)
  | invalidControlFile (url : String) (err : Option FileError)
  deriving Repr, DecidableEq

/-- The single warning kind `main` accumulates:
`Policy ID mismatch (expected ..., found ...)`. -/
inductive PolicyIdWarning where
  | policyIdMismatch (url expected found : String)
  deriving Repr, DecidableEq

/-! ### The validator -/

/-- `validate_control_file`: the `(is_valid, error_message)` pair, with the
checks in the script's order. -/
def validateControlFile (doc : ControlDoc) (expectedUrl : String) :
    Bool × Option FileError :=
  let fileId := doc.idField.getD ""
  if fileId ≠ expectedUrl then (false, some (.idMismatch expectedUrl fileId))
  else if ¬ doc.hasControlId then (false, some .missingControlId)
  else if doc.metadata.isNone then (false, some .missingMetadata)
  else
    match doc.metadata.bind (·.gemara) with
    | none => (false, some .missingGemara)
    | some g =>
      let layer := g.layer.getD ""
      if ¬ g.hasRequirementId then (false, some .missingRequirementId)
      else if ¬ g.hasSource then (false, some .missingSource)
      else if ¬ g.hasApplicability then (false, some .missingApplicability)
      else if layer = "Layer 3" then
        if g.policyId.isNone then (false, some .layer3MissingPolicyId)
        else if ¬ g.hasBaseRequirement then
          (false, some .layer3MissingBaseRequirement)
        else (true, none)
      else if layer = "Layer 2" then
        if ¬ g.hasCatalogId then (false, some .layer2MissingCatalogId)
        else (true, none)
      else (true, none)

/-- `find_control_file`: the first control document whose `$id` (default
`""`) equals the URL; the corpus list models the glob order. -/
def findControlFile (url : String) (controls : List ControlDoc) :
    Option ControlDoc :=
  controls.find? (fun doc => doc.idField.getD "" == url)

/-- The double quote character, written via its code point. -/
def quoteChar : Char := Char.ofNat 34

/-- The characters of the scheme prefix `gemara://`. -/
def gemaraScheme : List Char := "gemara://".data

/-- Strip an exact literal prefix from a character list, or fail. -/
def dropLiteral : List Char → List Char → Option (List Char)
  | [], s => some s
  | _ :: _, [] => none
  | p :: ps, c :: cs => if p = c then dropLiteral ps cs else none

/-- Split a character list at the first occurrence of a delimiter: the part
before it and the part after it, or `none` when the delimiter is absent. -/
def splitAtFirst (d : Char) : List Char → Option (List Char × List Char)
  | [] => none
  | c :: cs =>
    if c = d then some ([], cs)
    else (splitAtFirst d cs).map (fun p => (c :: p.1, p.2))

/-- The scan of one document for `re.findall(r'gemara://[^"]+', content)`:
left to right; at a position where the scheme prefix matches and at least
one non-quote character follows, the (greedy, maximal) match is emitted and
scanning resumes right after it; otherwise the scan advances one character.
The first argument counts characters of an emitted match still to be
skipped. -/
def findallAux : Nat → List Char → List (List Char)
  | _, [] => []
  | skip + 1, _ :: cs => findallAux skip cs
  | 0, c :: cs =>
    if gemaraScheme.isPrefixOf (c :: cs) then
      let body := (cs.drop 8).takeWhile (fun ch => ch != quoteChar)
      if body.isEmpty then findallAux 0 cs
      else (gemaraScheme ++ body) :: findallAux (8 + body.length) cs
    else findallAux 0 cs

/-- All `gemara://[^"]+` regex matches of one document, as strings. -/
def findallGemaraUrls (content : String) : List String :=
  (findallAux 0 content.data).map String.mk

/-- `extract_gemara_urls`: union the per-document matches into a set and
return them sorted — modelled as deduplication followed by an ascending
sort. -/
def extractGemaraUrls (archContents : List String) : List String :=
  List.insertionSort (· ≤ ·) (archContents.flatMap findallGemaraUrls).dedup

/-- `re.match(r'gemara://policies/([^/]+)/controls/', url)`, returning the
captured policy id: the URL must start with `gemara://policies/`, followed
by one or more non-slash characters, followed by `/controls/`. -/
def extractPolicyIdFromUrl (url : String) : Option String :=
  match dropLiteral "gemara://policies/".data url.data with
  | none => none
  | some r1 =>
    match splitAtFirst '/' r1 with
    | none => none
    | some (p, r2) =>
      if p.isEmpty then none
      else if "controls/".data.isPrefixOf r2 then some (String.mk p)
      else none

/-- The layer the warning check of `main` reads:
`data.get("metadata", {}).get("gemara", {}).get("layer")`. -/
def layerOf (doc : ControlDoc) : Option String :=
  (doc.metadata.bind (·.gemara)).bind (·.layer)

/-- `gemara_meta.get("policy-id", "")` as read by the warning check. -/
def policyIdOf (doc : ControlDoc) : String :=
  ((doc.metadata.bind (·.gemara)).bind (·.policyId)).getD ""

/-- The policy-id consistency check of `main` (lines 163–184): only for a
document whose layer is `Layer 3` and only when the URL matches the
policy-id pattern; a differing id yields the warning. -/
def checkPolicyIdWarning (url : String) (doc : ControlDoc) :
    Option PolicyIdWarning :=
  if layerOf doc == some "Layer 3" then
    match extractPolicyIdFromUrl url with
    | some expected =>
      if policyIdOf doc ≠ expected then
        some (.policyIdMismatch url expected (policyIdOf doc))
      else none
    | none => none
  else none

/-- The body of `main`'s per-URL loop: the error (if any) and the warning
(if any) this URL contributes. -/
def processUrl (controls : List ControlDoc) (url : String) :
    Option ValidationIssue × Option PolicyIdWarning :=
  match findControlFile url controls with
  | none => (some (.missingControlFileFor url), none)
  | some doc =>
    match validateControlFile doc url with
    | (true, _) => (none, checkPolicyIdWarning url doc)
    | (false, e) => (some (.invalidControlFile url e), none)

/-- One iteration of `main`'s loop, appending to the accumulated error and
warning lists. -/
def validationStep (controls : List ControlDoc)
    (acc : List ValidationIssue × List PolicyIdWarning) (url : String) :
    List ValidationIssue × List PolicyIdWarning :=
  ((processUrl controls url).1.elim acc.1 (fun e => acc.1 ++ [e]),
   (processUrl controls url).2.elim acc.2 (fun w => acc.2 ++ [w]))

/-- `main`'s loop over all URLs: the final `(errors, warnings)` pair. -/
def runValidation (urls : List String) (controls : List ControlDoc) :
    List ValidationIssue × List PolicyIdWarning :=
  urls.foldl (validationStep controls) ([], [])

/-- The exit code of `main` once both directories exist: `0` when no URL was
extracted, otherwise `1` exactly when the accumulated error list is
non-empty. -/
def validateMain (archContents : List String) (controls : List ControlDoc) :
    Nat :=
  let urls := extractGemaraUrls archContents
  if urls.isEmpty then 0
  else if (runValidation urls controls).1.isEmpty then 0
  else 1

/-! ### Spec-side definitions for the URL grammar -/

/-- Modelled from the spec: the claim's reading of the extraction grammar —
a string matches when it is the scheme prefix followed by one or more
non-quote characters. -/
def matchesUrlGrammar (s : String) : Prop :=
  ∃ body : List Char, body ≠ [] ∧ (∀ ch ∈ body, ch ≠ quoteChar) ∧
    s.data = gemaraScheme ++ body

/-- Modelled from the spec: a parser for the canonical URL grammar
`gemara://policies/<policy-id>/controls/<control-id>/requirements/<requirement-id>`
(§6 of the spec).  The repository itself contains no full canonical-URL
parser — the validator's regex only recovers the policy id — so the parser
is built from the grammar's words: fixed literals between the three fields,
the policy and control ids ending at the first following slash. -/
def parseCanonicalUrl (url : String) : Option (String × String × String) :=
  match dropLiteral "gemara://policies/".data url.data with
  | none => none
  | some r1 =>
    match splitAtFirst '/' r1 with
    | none => none
    | some (p, r2) =>
      match dropLiteral "controls/".data r2 with
      | none => none
      | some r3 =>
        match splitAtFirst '/' r3 with
        | none => none
        | some (c, r4) =>
          match dropLiteral "requirements/".data r4 with
          | none => none
          | some r => some (String.mk p, String.mk c, String.mk r)

/-! ### Concrete fixtures used by counterexamples and witnesses -/

/-- The control reference of the placeholder policy in `main()`. -/
def exampleControlRef : ControlReference :=
  { referenceId := "FINOS-CCC"
    controlModifications := [
      { targetId := "CCC.C01"
        title := some "Enhanced Encryption"
        objective := some "Enhanced encryption for cloud infrastructure" }]
    assessmentRequirementModifications := [
      { targetId := "CCC.C01.TR01"
        text := some "All HTTPS communications MUST use TLS 1.3 or higher"
        applicability := some ["default"] }] }

/-- The single record the script resolves from the placeholder policy with
policy id `P`. -/
def exampleResolved : ResolvedRequirement :=
  { requirementId := "CCC.C01.TR01"
    controlId := "CCC.C01"
    catalogId := "FINOS-CCC"
    policyId := "P"
    text := "All HTTPS communications MUST use TLS 1.3 or higher"
    applicability := ["default"]
    isModified := true
    baseRequirementId := "CCC.C01.TR01"
    gemaraUrl := "gemara://policies/P/controls/CCC.C01/requirements/CCC.C01.TR01"
    baseUrl := "gemara://controls/FINOS-CCC/CCC.C01/requirements/CCC.C01.TR01"
    controlTitle := "Enhanced Encryption"
    controlObjective := "Enhanced encryption for cloud infrastructure" }

/-- A base control with one requirement, for exercising the merge. -/
def sampleBase : BaseControl :=
  { id := "B"
    catalogId := "CAT"
    title := "T"
    objective := "O"
    assessmentRequirements := [⟨"B.TR01", "base text", ["default"]⟩] }

/-- A control modification with no field overrides. -/
def sampleControlMod : ControlModification := ⟨"B", none, none⟩

/-- First of two modifications sharing the unmatched target id `X`. -/
def sampleModX1 : AssessmentRequirementModification := ⟨"X", some "t1", some ["a"]⟩

/-- Second of two modifications sharing the unmatched target id `X`. -/
def sampleModX2 : AssessmentRequirementModification := ⟨"X", some "t2", some ["b"]⟩

/-- A modification targeting the base requirement of `sampleBase`. -/
def sampleModBase : AssessmentRequirementModification := ⟨"B.TR01", none, none⟩

/-! ### Lemmas about the merge -/

theorem any_id_eq_true_iff (reqs : List AssessmentRequirement) (x : String) :
    (reqs.any (fun req => req.id == x)) = true ↔ x ∈ reqs.map (·.id) := by
  simp only [List.any_eq_true, beq_iff_eq, List.mem_map]

theorem map_id_resolveBaseRequirements
    (mods : List AssessmentRequirementModification)
    (baseReqs : List AssessmentRequirement) :
    (resolveBaseRequirements mods baseReqs).map (·.id) = baseReqs.map (·.id) := by
  induction baseReqs with
  | nil => rfl
  | cons br rest ih =>
    have hcons : resolveBaseRequirements mods (br :: rest)
        = (match mods.find? (fun am => am.targetId == br.id) with
            | some m => applyAssessmentMod br m
            | none => br) :: resolveBaseRequirements mods rest := rfl
    rw [hcons, List.map_cons, List.map_cons, ih]
    congr 1
    cases h : mods.find? (fun am => am.targetId == br.id) with
    | none => rfl
    | some m =>
      have hm : m.targetId = br.id := by
        have := List.find?_some h
        simpa [beq_iff_eq] using this
      simp [applyAssessmentMod, hm]

theorem addNewRequirements_eq_append
    (ams : List AssessmentRequirementModification) :
    ∀ reqs, addNewRequirements reqs ams
      = reqs ++ specAppendedRequirements (reqs.map (·.id)) ams := by
  induction ams with
  | nil => intro reqs; simp [addNewRequirements, specAppendedRequirements]
  | cons m ms ih =>
    intro reqs
    by_cases h : m.targetId ∈ reqs.map (·.id)
    · have hany := (any_id_eq_true_iff reqs m.targetId).2 h
      simp only [addNewRequirements, hany, if_true, specAppendedRequirements,
        h, ite_true]
      exact ih reqs
    · have hany : ¬ (reqs.any (fun req => req.id == m.targetId)) = true :=
        fun hc => h ((any_id_eq_true_iff reqs m.targetId).1 hc)
      simp only [addNewRequirements, if_neg hany, specAppendedRequirements,
        if_neg h]
      rw [ih (reqs ++ [newRequirementOfMod m])]
      simp [newRequirementOfMod, List.append_assoc]

theorem nodup_ids_addNewRequirements
    (ams : List AssessmentRequirementModification) :
    ∀ reqs, ((reqs.map (·.id)).Nodup : Prop) →
      ((addNewRequirements reqs ams).map (·.id)).Nodup := by
  induction ams with
  | nil => intro reqs h; simpa [addNewRequirements] using h
  | cons m ms ih =>
    intro reqs h
    by_cases hmem : m.targetId ∈ reqs.map (·.id)
    · have hany := (any_id_eq_true_iff reqs m.targetId).2 hmem
      simp only [addNewRequirements, hany, if_true]
      exact ih reqs h
    · have hany : ¬ (reqs.any (fun req => req.id == m.targetId)) = true :=
        fun hc => hmem ((any_id_eq_true_iff reqs m.targetId).1 hc)
      simp only [addNewRequirements, if_neg hany]
      apply ih
      have hmap : (reqs ++ [newRequirementOfMod m]).map (·.id)
          = reqs.map (·.id) ++ [m.targetId] := by
        simp [newRequirementOfMod]
      rw [hmap]
      exact ((List.perm_append_singleton _ _).nodup_iff).2
        (List.nodup_cons.2 ⟨hmem, h⟩)

theorem filter_id_eq_nil {x : String} {reqs : List AssessmentRequirement}
    (h : x ∉ reqs.map (·.id)) :
    reqs.filter (fun q => q.id == x) = [] := by
  induction reqs with
  | nil => rfl
  | cons q rest ih =>
    simp only [List.map_cons, List.mem_cons, not_or] at h
    simp only [List.filter_cons]
    have : ¬ (q.id == x) = true := by
      simp only [beq_iff_eq]
      exact fun he => h.1 he.symm
    simp only [this, if_false]
    exact ih h.2

theorem filter_addNewRequirements_of_mem (x : String)
    (ams : List AssessmentRequirementModification) :
    ∀ reqs, x ∈ reqs.map (·.id) →
      (addNewRequirements reqs ams).filter (fun q => q.id == x)
        = reqs.filter (fun q => q.id == x) := by
  induction ams with
  | nil => intro reqs _; simp [addNewRequirements]
  | cons m ms ih =>
    intro reqs hx
    by_cases hmem : m.targetId ∈ reqs.map (·.id)
    · have hany := (any_id_eq_true_iff reqs m.targetId).2 hmem
      simp only [addNewRequirements, hany, if_true]
      exact ih reqs hx
    · have hany : ¬ (reqs.any (fun req => req.id == m.targetId)) = true :=
        fun hc => hmem ((any_id_eq_true_iff reqs m.targetId).1 hc)
      have hne : ¬ ((newRequirementOfMod m).id == x) = true := by
        simp only [newRequirementOfMod, beq_iff_eq]
        exact fun he => hmem (he ▸ hx)
      simp only [addNewRequirements, if_neg hany]
      rw [ih (reqs ++ [newRequirementOfMod m]) (by simpa using Or.inl hx)]
      simp [List.filter_append, List.filter_cons, hne]

theorem filter_addNewRequirements_first (x : String)
    (ams : List AssessmentRequirementModification) :
    ∀ reqs, x ∉ reqs.map (·.id) → (∃ m ∈ ams, m.targetId = x) →
      ∃ m, m ∈ ams ∧ m.targetId = x ∧
        (addNewRequirements reqs ams).filter (fun q => q.id == x)
          = [newRequirementOfMod m] := by
  induction ams with
  | nil => intro reqs _ hex; exact absurd hex (by simp)
  | cons m ms ih =>
    intro reqs hx hex
    by_cases hmx : m.targetId = x
    · have hany : ¬ (reqs.any (fun req => req.id == m.targetId)) = true := by
        rw [hmx]
        exact fun hc => hx ((any_id_eq_true_iff reqs x).1 hc)
      refine ⟨m, List.mem_cons_self m ms, hmx, ?_⟩
      simp only [addNewRequirements, if_neg hany]
      have hx' : x ∈ (reqs ++ [newRequirementOfMod m]).map (·.id) := by
        simp [newRequirementOfMod, hmx]
      rw [filter_addNewRequirements_of_mem x ms _ hx']
      rw [List.filter_append, filter_id_eq_nil hx]
      simp [List.filter_cons, newRequirementOfMod, hmx]
    · have hex' : ∃ m' ∈ ms, m'.targetId = x := by
        rcases hex with ⟨m', hm', he⟩
        rcases List.mem_cons.1 hm' with rfl | hZ
        · exact absurd he hmx
        · exact ⟨m', hZ, he⟩
      by_cases hmem : m.targetId ∈ reqs.map (·.id)
      · have hany := (any_id_eq_true_iff reqs m.targetId).2 hmem
        simp only [addNewRequirements, hany, if_true]
        rcases ih reqs hx hex' with ⟨m', h1, h2, h3⟩
        exact ⟨m', List.mem_cons_of_mem m h1, h2, h3⟩
      · have hany : ¬ (reqs.any (fun req => req.id == m.targetId)) = true :=
          fun hc => hmem ((any_id_eq_true_iff reqs m.targetId).1 hc)
        have hx' : x ∉ (reqs ++ [newRequirementOfMod m]).map (·.id) := by
          simp only [List.map_append, List.mem_append, not_or,
            newRequirementOfMod]
          exact ⟨hx, by simp [eq_comm]; exact fun h => hmx h.symm⟩
        simp only [addNewRequirements, if_neg hany]
        rcases ih (reqs ++ [newRequirementOfMod m]) hx' hex' with ⟨m', h1, h2, h3⟩
        exact ⟨m', List.mem_cons_of_mem m h1, h2, h3⟩

theorem resolveBaseRequirements_forall₂
    (ams : List AssessmentRequirementModification)
    (baseReqs : List AssessmentRequirement) :
    List.Forall₂ (fun br res =>
        res.id = br.id ∧
        ((∃ am ∈ ams, am.targetId = br.id ∧
            res.text = am.text.getD br.text ∧
            res.applicability = am.applicability.getD br.applicability) ∨
          ((∀ am ∈ ams, am.targetId ≠ br.id) ∧ res = br)))
      baseReqs (resolveBaseRequirements ams baseReqs) := by
  induction baseReqs with
  | nil => exact List.Forall₂.nil
  | cons br rest ih =>
    simp only [resolveBaseRequirements, List.map_cons] at ih ⊢
    refine List.Forall₂.cons ?_ ih
    cases h : ams.find? (fun am => am.targetId == br.id) with
    | none =>
      refine ⟨rfl, Or.inr ⟨?_, rfl⟩⟩
      intro am ham
      have := List.find?_eq_none.1 h am ham
      simpa [beq_iff_eq] using this
    | some m =>
      have hm : m.targetId = br.id := by
        have := List.find?_some h
        simpa [beq_iff_eq] using this
      exact ⟨hm, Or.inl ⟨m, List.mem_of_find?_eq_some h, hm, rfl, rfl⟩⟩

/-! ### Claim theorems C1–C4 -/

/-- Claim C1, counterexample: the second of two modifications that share the
fresh target id `X` matches no base requirement, yet the merge does **not**
append it — the resolved list has two requirements, none carrying the second
modification's override text `t2`, because the append check runs against the
growing resolved list rather than against the base requirements alone. -/
theorem c1_counterexample :
    (∀ r ∈ sampleBase.assessmentRequirements, r.id ≠ sampleModX2.targetId) ∧
    sampleModX2 ∈ [sampleModX1, sampleModX2] ∧
    (applyModifications sampleBase sampleControlMod
        [sampleModX1, sampleModX2]).assessmentRequirements.length = 2 ∧
    ((applyModifications sampleBase sampleControlMod
        [sampleModX1, sampleModX2]).assessmentRequirements.countP
      (fun q => q.text == "t2")) = 0 := by
  decide

/-- Claim C1 (amended): resolving one control modification walks the base
requirements in base order, overriding text/applicability from the first
matching modification when present (the id is never overridden); afterwards
a modification is appended, in modification-list order, as a new requirement
with empty-string/empty-set defaults exactly when its target id matches no
base requirement **and no previously appended modification's target id**
(later modifications with a duplicate fresh target id are dropped). -/
theorem c1_merge_characterisation (base : BaseControl)
    (cm : ControlModification)
    (ams : List AssessmentRequirementModification) :
    (applyModifications base cm ams).assessmentRequirements
      = resolveBaseRequirements ams base.assessmentRequirements
        ++ specAppendedRequirements (base.assessmentRequirements.map (·.id)) ams
    ∧ List.Forall₂ (fun br res =>
        res.id = br.id ∧
        ((∃ am ∈ ams, am.targetId = br.id ∧
            res.text = am.text.getD br.text ∧
            res.applicability = am.applicability.getD br.applicability) ∨
          ((∀ am ∈ ams, am.targetId ≠ br.id) ∧ res = br)))
        base.assessmentRequirements
        (resolveBaseRequirements ams base.assessmentRequirements) := by
  constructor
  · show addNewRequirements
        (resolveBaseRequirements ams base.assessmentRequirements) ams = _
    rw [addNewRequirements_eq_append ams, map_id_resolveBaseRequirements]
  · exact resolveBaseRequirements_forall₂ ams base.assessmentRequirements

/-- Witness for C1: the amended characterisation evaluated on the concrete
duplicate-target scenario. -/
theorem c1_merge_witness :
    (applyModifications sampleBase sampleControlMod
        [sampleModX1, sampleModX2]).assessmentRequirements
      = resolveBaseRequirements [sampleModX1, sampleModX2]
          sampleBase.assessmentRequirements
        ++ specAppendedRequirements
            (sampleBase.assessmentRequirements.map (·.id))
            [sampleModX1, sampleModX2] :=
  (c1_merge_characterisation sampleBase sampleControlMod
    [sampleModX1, sampleModX2]).1

/-- Claim C2: a resolved requirement's `is-modified` flag is true exactly
when its requirement id is the target id of some assessment-requirement
modification of the enclosing control reference, independent of whether the
modification changes any field. -/
theorem c2_isModified_iff (provider : String → String → BaseControl)
    (policyId : String) (cr : ControlReference) (r : ResolvedRequirement)
    (hr : r ∈ resolveControlRef provider policyId cr) :
    r.isModified = true ↔
      ∃ am ∈ cr.assessmentRequirementModifications,
        am.targetId = r.requirementId := by
  simp only [resolveControlRef] at hr
  rcases List.mem_flatMap.1 hr with ⟨cm, hcm, hr'⟩
  simp only [resolveControlMod] at hr'
  rcases List.mem_map.1 hr' with ⟨req, hreq, rfl⟩
  simp [resolvedRecordOf, List.any_eq_true, beq_iff_eq]

/-- Witness for C2: the flag equivalence evaluated on the record the script
resolves from its placeholder policy. -/
theorem c2_isModified_witness :
    exampleResolved.isModified = true ↔
      ∃ am ∈ exampleControlRef.assessmentRequirementModifications,
        am.targetId = exampleResolved.requirementId :=
  c2_isModified_iff getBaseControl "P" exampleControlRef exampleResolved
    (by decide)

/-- Claim C3: every resolved requirement's `base-requirement-id` is the
control id, a dot and the requirement id's last dot-separated component when
the requirement is modified, and the requirement id itself otherwise; on the
script's concrete scenario (control `CCC.C01`, modified requirement
`CCC.C01.TR01`) this yields `CCC.C01.TR01` and the expected canonical URL. -/
theorem c3_base_requirement_id (provider : String → String → BaseControl)
    (policyId : String) (cr : ControlReference) (r : ResolvedRequirement)
    (hr : r ∈ resolveControlRef provider policyId cr) :
    (r.baseRequirementId =
        if r.isModified then
          r.controlId ++ "." ++ suffixAfterLastDot r.requirementId
        else r.requirementId)
    ∧ exampleResolved ∈ resolveAssessmentRequirements (examplePolicy "P")
    ∧ exampleResolved.isModified = true
    ∧ exampleResolved.baseRequirementId = "CCC.C01.TR01"
    ∧ exampleResolved.gemaraUrl
        = "gemara://policies/P/controls/CCC.C01/requirements/CCC.C01.TR01" := by
  refine ⟨?_, by decide, by decide, by decide, by decide⟩
  simp only [resolveControlRef] at hr
  rcases List.mem_flatMap.1 hr with ⟨cm, hcm, hr'⟩
  simp only [resolveControlMod] at hr'
  rcases List.mem_map.1 hr' with ⟨req, hreq, rfl⟩
  rfl

/-- Witness for C3: the derivation rule evaluated on the record the script
resolves from its placeholder policy. -/
theorem c3_base_requirement_id_witness :
    exampleResolved.baseRequirementId =
      if exampleResolved.isModified then
        exampleResolved.controlId ++ "."
          ++ suffixAfterLastDot exampleResolved.requirementId
      else exampleResolved.requirementId :=
  (c3_base_requirement_id getBaseControl "P" exampleControlRef exampleResolved
    (by decide)).1

/-- Claim C4: within one resolved control the requirement ids are pairwise
distinct, and a modification whose target id matches an existing base
requirement id leaves exactly one resolved requirement with that id.  Every
resolved control the program produces arises as
`applyModifications (getBaseControl _ cm.targetId) cm ams`. -/
theorem c4_requirement_ids_nodup (catalogId : String)
    (cm : ControlModification)
    (ams : List AssessmentRequirementModification) :
    ((applyModifications (getBaseControl catalogId cm.targetId) cm
        ams).assessmentRequirements.map (·.id)).Nodup
    ∧ ∀ m ∈ ams,
        m.targetId ∈ (getBaseControl catalogId
            cm.targetId).assessmentRequirements.map (·.id) →
        ((applyModifications (getBaseControl catalogId cm.targetId) cm
            ams).assessmentRequirements.map (·.id)).count m.targetId = 1 := by
  have hphase1 : ((resolveBaseRequirements ams
      (getBaseControl catalogId
        cm.targetId).assessmentRequirements).map (·.id)).Nodup := by
    rw [map_id_resolveBaseRequirements]
    simp [getBaseControl]
  have hnodup : ((applyModifications (getBaseControl catalogId cm.targetId) cm
      ams).assessmentRequirements.map (·.id)).Nodup := by
    show ((addNewRequirements (resolveBaseRequirements ams _)
        ams).map (·.id)).Nodup
    exact nodup_ids_addNewRequirements ams _ hphase1
  refine ⟨hnodup, fun m hm hmem => ?_⟩
  apply List.count_eq_one_of_mem hnodup
  show m.targetId ∈ ((addNewRequirements (resolveBaseRequirements ams _)
      ams).map (·.id))
  rw [addNewRequirements_eq_append, List.map_append, List.mem_append]
  left
  rw [map_id_resolveBaseRequirements]
  exact hmem

/-- Witness for C4: the uniqueness count evaluated on a modification that
targets the single base requirement `B.TR01`. -/
theorem c4_requirement_ids_nodup_witness :
    ((applyModifications (getBaseControl "CAT" sampleControlMod.targetId)
        sampleControlMod
        [sampleModBase]).assessmentRequirements.map (·.id)).count
      sampleModBase.targetId = 1 :=
  (c4_requirement_ids_nodup "CAT" sampleControlMod [sampleModBase]).2
    sampleModBase (by decide) (by decide)

/-- A modification with a fresh target id yields, in the records of one
control modification, exactly one record with that requirement id, carrying
that control modification's control id and URLs. -/
theorem resolveControlMod_filter_new (policyId catalogId x : String)
    (cm : ControlModification)
    (ams : List AssessmentRequirementModification)
    (hm : ∃ m ∈ ams, m.targetId = x)
    (hx : x ≠ cm.targetId ++ ".TR01") :
    ((resolveControlMod getBaseControl policyId catalogId ams cm).filter
        (fun r => r.requirementId == x)).map
      (fun r => (r.controlId, r.gemaraUrl, r.baseUrl))
      = [(cm.targetId, canonicalUrl policyId cm.targetId x,
          baseUrl catalogId cm.targetId x)] := by
  have hxnot : x ∉ ((resolveBaseRequirements ams
      (getBaseControl catalogId
        cm.targetId).assessmentRequirements).map (·.id)) := by
    rw [map_id_resolveBaseRequirements]
    simp [getBaseControl, hx]
  rcases filter_addNewRequirements_first x ams _ hxnot hm with ⟨m, _, hmx, hfil⟩
  have hres : resolveControlMod getBaseControl policyId catalogId ams cm
      = ((applyModifications (getBaseControl catalogId cm.targetId) cm
          ams).assessmentRequirements).map
        (resolvedRecordOf policyId catalogId ams cm
          (applyModifications (getBaseControl catalogId cm.targetId) cm
            ams)) := rfl
  rw [hres, List.filter_map]
  have hpred : ((fun r : ResolvedRequirement => r.requirementId == x) ∘
      (resolvedRecordOf policyId catalogId ams cm
        (applyModifications (getBaseControl catalogId cm.targetId) cm ams)))
      = fun q => q.id == x := rfl
  rw [hpred]
  have hfil' : (applyModifications (getBaseControl catalogId cm.targetId) cm
      ams).assessmentRequirements.filter (fun q => q.id == x)
      = [newRequirementOfMod m] := hfil
  rw [hfil']
  simp [resolvedRecordOf, newRequirementOfMod, hmx]

/-- Claim C9: an assessment-requirement modification whose target id matches
no base requirement of any targeted control is appended once under **each**
control modification of the reference: the resolve output contains one
record with that requirement id per control modification, carrying that
modification's control id and the URLs derived from it. -/
theorem c9_new_requirement_per_control_mod (policyId catalogId x : String)
    (cms : List ControlModification)
    (ams : List AssessmentRequirementModification)
    (hm : ∃ m ∈ ams, m.targetId = x)
    (hx : ∀ cm ∈ cms, x ≠ cm.targetId ++ ".TR01") :
    ((resolveControlRef getBaseControl policyId
        ⟨catalogId, cms, ams⟩).filter (fun r => r.requirementId == x)).map
      (fun r => (r.controlId, r.gemaraUrl, r.baseUrl))
      = cms.map (fun cm =>
          (cm.targetId, canonicalUrl policyId cm.targetId x,
            baseUrl catalogId cm.targetId x)) := by
  induction cms with
  | nil => simp [resolveControlRef]
  | cons cm rest ih =>
    have hstep : resolveControlRef getBaseControl policyId ⟨catalogId, cm :: rest, ams⟩
        = resolveControlMod getBaseControl policyId catalogId ams cm
          ++ resolveControlRef getBaseControl policyId ⟨catalogId, rest, ams⟩ := by
      simp [resolveControlRef]
    rw [hstep, List.filter_append, List.map_append,
      resolveControlMod_filter_new policyId catalogId x cm ams hm
        (hx cm (List.mem_cons_self cm rest)),
      ih (fun c hc => hx c (List.mem_cons_of_mem cm hc))]
    rfl

/-- Witness for C9: two control modifications `C1`, `C2` and one fresh
modification target `X` produce one `X` record per control. -/
theorem c9_new_requirement_witness :
    ((resolveControlRef getBaseControl "P"
        ⟨"CAT", [⟨"C1", none, none⟩, ⟨"C2", none, none⟩],
          [sampleModX1]⟩).filter (fun r => r.requirementId == "X")).map
      (fun r => (r.controlId, r.gemaraUrl, r.baseUrl))
      = [("C1", canonicalUrl "P" "C1" "X", baseUrl "CAT" "C1" "X"),
          ("C2", canonicalUrl "P" "C2" "X", baseUrl "CAT" "C2" "X")] :=
  c9_new_requirement_per_control_mod "P" "CAT" "X"
    [⟨"C1", none, none⟩, ⟨"C2", none, none⟩] [sampleModX1]
    ⟨sampleModX1, by decide, rfl⟩ (by decide)

/-! ### Lemmas about the URL grammar -/

theorem dropLiteral_append (p : List Char) : ∀ s, dropLiteral p (p ++ s) = some s := by
  induction p with
  | nil => intro s; rfl
  | cons c cs ih => intro s; simp [dropLiteral, ih]

theorem splitAtFirst_append (d : Char) :
    ∀ (a b : List Char), d ∉ a → splitAtFirst d (a ++ d :: b) = some (a, b) := by
  intro a
  induction a with
  | nil => intro b _; simp [splitAtFirst]
  | cons c cs ih =>
    intro b hd
    simp only [List.mem_cons, not_or] at hd
    have hne : ¬ c = d := fun h => hd.1 h.symm
    simp [splitAtFirst, hne, ih b hd.2]

theorem parseCanonicalUrl_canonicalUrl (p c r : String)
    (hp : '/' ∉ p.data) (hc : '/' ∉ c.data) :
    parseCanonicalUrl (canonicalUrl p c r) = some (p, c, r) := by
  have hdata : (canonicalUrl p c r).data
      = ("gemara://policies/" : String).data
        ++ (p.data ++ '/' :: (("controls/" : String).data
          ++ (c.data ++ '/' :: (("requirements/" : String).data ++ r.data)))) := by
    have h1 : ("/controls/" : String).data
        = '/' :: ("controls/" : String).data := rfl
    have h2 : ("/requirements/" : String).data
        = '/' :: ("requirements/" : String).data := rfl
    simp [canonicalUrl, String.data_append, h1, h2]
  simp only [parseCanonicalUrl, hdata, dropLiteral_append,
    splitAtFirst_append '/' p.data _ hp, splitAtFirst_append '/' c.data _ hc]

/-! ### Claim theorems C5, C7 -/

/-- Claim C5, counterexample: `canonicalUrl` is not injective over **all**
string triples — a control id containing `/controls/` collides with a policy
id containing it. -/
theorem c5_counterexample :
    canonicalUrl "A" "B/controls/C" "R" = canonicalUrl "A/controls/B" "C" "R"
    ∧ (("A", "B/controls/C", "R") : String × String × String)
        ≠ ("A/controls/B", "C", "R") := by
  constructor
  · decide
  · decide

/-- Claim C5 (amended): over triples whose policy id and control id contain
no `/`, `canonicalUrl` is injective, and parsing the canonical URL by its
grammar recovers exactly the triple it was built from.  (Ids containing `/`
make the grammar ambiguous, see the counterexample.) -/
theorem c5_canonicalUrl_injective (p₁ c₁ r₁ p₂ c₂ r₂ : String)
    (hp₁ : '/' ∉ p₁.data) (hc₁ : '/' ∉ c₁.data)
    (hp₂ : '/' ∉ p₂.data) (hc₂ : '/' ∉ c₂.data) :
    parseCanonicalUrl (canonicalUrl p₁ c₁ r₁) = some (p₁, c₁, r₁)
    ∧ (canonicalUrl p₁ c₁ r₁ = canonicalUrl p₂ c₂ r₂ →
        p₁ = p₂ ∧ c₁ = c₂ ∧ r₁ = r₂) := by
  refine ⟨parseCanonicalUrl_canonicalUrl p₁ c₁ r₁ hp₁ hc₁, fun he => ?_⟩
  have h1 := parseCanonicalUrl_canonicalUrl p₁ c₁ r₁ hp₁ hc₁
  have h2 := parseCanonicalUrl_canonicalUrl p₂ c₂ r₂ hp₂ hc₂
  rw [he, h2] at h1
  simpa [Prod.ext_iff, and_assoc] using h1.symm

/-- Witness for C5: parsing recovers the script's concrete triple. -/
theorem c5_canonicalUrl_witness :
    parseCanonicalUrl (canonicalUrl "P" "CCC.C01" "CCC.C01.TR01")
      = some ("P", "CCC.C01", "CCC.C01.TR01") :=
  (c5_canonicalUrl_injective "P" "CCC.C01" "CCC.C01.TR01"
    "P" "CCC.C01" "CCC.C01.TR01"
    (by decide) (by decide) (by decide) (by decide)).1

/-! ### Lemmas about extraction and the validation loop -/

theorem findallAux_grammar :
    ∀ (s : List Char) (skip : Nat) (l : List Char), l ∈ findallAux skip s →
      ∃ body, body ≠ [] ∧ (∀ ch ∈ body, ch ≠ quoteChar) ∧
        l = gemaraScheme ++ body := by
  intro s
  induction s with
  | nil => intro skip l h; simp [findallAux] at h
  | cons c cs ih =>
    intro skip l h
    cases skip with
    | succ n => exact ih n l h
    | zero =>
      by_cases hpre : gemaraScheme.isPrefixOf (c :: cs)
      · simp only [findallAux, hpre, if_true] at h
        by_cases hbody : ((cs.drop 8).takeWhile (fun ch => ch != quoteChar)).isEmpty
        · rw [if_pos hbody] at h
          exact ih 0 l h
        · rw [if_neg hbody] at h
          rcases List.mem_cons.1 h with rfl | htail
          · refine ⟨(cs.drop 8).takeWhile (fun ch => ch != quoteChar),
              fun hnil => hbody (by simp [hnil]), ?_, rfl⟩
            intro ch hch
            have := List.mem_takeWhile_imp hch
            simpa using this
          · exact ih _ l htail
      · simp only [findallAux, hpre, if_false] at h
        exact ih 0 l h

theorem runValidation_foldl (controls : List ControlDoc) :
    ∀ (urls : List String) (acc : List ValidationIssue × List PolicyIdWarning),
      urls.foldl (validationStep controls) acc
        = (acc.1 ++ urls.filterMap (fun u => (processUrl controls u).1),
           acc.2 ++ urls.filterMap (fun u => (processUrl controls u).2)) := by
  intro urls
  induction urls with
  | nil => intro acc; simp
  | cons u us ih =>
    intro acc
    rw [List.foldl_cons, ih]
    cases h1 : (processUrl controls u).1 <;>
      cases h2 : (processUrl controls u).2 <;>
        simp [validationStep, h1, h2, List.filterMap_cons]

theorem runValidation_eq_filterMap (urls : List String)
    (controls : List ControlDoc) :
    runValidation urls controls
      = (urls.filterMap (fun u => (processUrl controls u).1),
         urls.filterMap (fun u => (processUrl controls u).2)) := by
  simpa using runValidation_foldl controls urls ([], [])

/-- Claim C7, counterexample: extraction does **not** collect every
substring matching the grammar — `gemara://a` is a substring of the
document `gemara://ab` and matches `gemara://[^"]+`, but only the maximal
match `gemara://ab` is collected. -/
theorem c7_counterexample :
    matchesUrlGrammar "gemara://a"
    ∧ ("gemara://a" : String).data.IsInfix ("gemara://ab" : String).data
    ∧ "gemara://a" ∉ extractGemaraUrls ["gemara://ab"] := by
  refine ⟨⟨['a'], by decide, by decide, by decide⟩, ⟨[], ['b'], by decide⟩,
    by decide⟩

/-- Claim C7 (amended): extraction collects, into a duplicate-free set, the
maximal non-overlapping left-to-right matches of `gemara://[^"]+` in each
architecture document (each match extends from a scheme occurrence to the
next double quote or the end of the text — not every matching substring);
every collected string matches the grammar; resolution then processes the
extracted URLs in ascending lexical order, accumulating errors and warnings
across all URLs without stopping at the first failure. -/
theorem c7_extraction (docs : List String) (controls : List ControlDoc) :
    List.Sorted (· ≤ ·) (extractGemaraUrls docs)
    ∧ (extractGemaraUrls docs).Nodup
    ∧ (∀ u, u ∈ extractGemaraUrls docs ↔ ∃ d ∈ docs, u ∈ findallGemaraUrls d)
    ∧ (∀ u ∈ extractGemaraUrls docs, matchesUrlGrammar u)
    ∧ runValidation (extractGemaraUrls docs) controls
        = ((extractGemaraUrls docs).filterMap
            (fun u => (processUrl controls u).1),
           (extractGemaraUrls docs).filterMap
            (fun u => (processUrl controls u).2)) := by
  have hmem : ∀ u, u ∈ extractGemaraUrls docs ↔
      ∃ d ∈ docs, u ∈ findallGemaraUrls d := by
    intro u
    rw [extractGemaraUrls, (List.perm_insertionSort _ _).mem_iff,
      List.mem_dedup, List.mem_flatMap]
  refine ⟨List.sorted_insertionSort (· ≤ ·) _,
    ((List.perm_insertionSort _ _).nodup_iff).2 (List.nodup_dedup _),
    hmem, ?_, runValidation_eq_filterMap _ controls⟩
  intro u hu
  rcases (hmem u).1 hu with ⟨d, _, hd⟩
  rcases List.mem_map.1 hd with ⟨l, hl, rfl⟩
  rcases findallAux_grammar d.data 0 l hl with ⟨body, hne, hq, rfl⟩
  exact ⟨body, hne, hq, rfl⟩

/-- Witness for C7: the extraction properties evaluated on a one-document
corpus. -/
theorem c7_extraction_witness :
    ("gemara://ab" ∈ extractGemaraUrls ["gemara://ab"] ↔
      ∃ d ∈ ["gemara://ab"], "gemara://ab" ∈ findallGemaraUrls d)
    ∧ matchesUrlGrammar "gemara://ab" :=
  ⟨(c7_extraction ["gemara://ab"] []).2.2.1 "gemara://ab",
    (c7_extraction ["gemara://ab"] []).2.2.2.1 "gemara://ab" (by decide)⟩

/-! ### Validator fixtures -/

/-- A canonical URL used by the validator witnesses. -/
def sampleUrl : String := "gemara://policies/P/controls/C/requirements/R"

/-- Gemara metadata of a valid Layer 3 artifact carrying policy id `Q`. -/
def sampleL3Meta : GemaraMetadata :=
  { layer := some "Layer 3"
    hasRequirementId := true
    hasSource := true
    hasApplicability := true
    policyId := some "Q"
    hasBaseRequirement := true
    hasCatalogId := false }

/-- A structurally valid Layer 3 control document whose metadata policy id
`Q` differs from the `P` embedded in `sampleUrl`. -/
def sampleL3Doc : ControlDoc :=
  { idField := some sampleUrl
    hasControlId := true
    metadata := some ⟨some sampleL3Meta⟩ }

/-- Gemara metadata declaring the unrecognised layer `Layer 1`. -/
def sampleOtherMeta : GemaraMetadata :=
  { layer := some "Layer 1"
    hasRequirementId := true
    hasSource := true
    hasApplicability := true
    policyId := none
    hasBaseRequirement := false
    hasCatalogId := false }

/-- A control document declaring the unrecognised layer `Layer 1`. -/
def sampleOtherDoc : ControlDoc :=
  { idField := some "u"
    hasControlId := true
    metadata := some ⟨some sampleOtherMeta⟩ }

/-! ### Claim theorems C6, C8, C10 -/

/-- Claim C6: with at least one extracted URL, the run exits `1` exactly
when the accumulated error list is non-empty (and always exits `0` or `1`,
determined by the error list alone — warnings never change the
classification); a URL whose looked-up artifact validates as Layer 3 but
embeds a different policy id contributes exactly one warning and no error. -/
theorem c6_classification (archContents : List String)
    (controls : List ControlDoc)
    (hne : extractGemaraUrls archContents ≠ []) :
    (validateMain archContents controls = 1 ↔
      (runValidation (extractGemaraUrls archContents) controls).1 ≠ [])
    ∧ (validateMain archContents controls = 0
        ∨ validateMain archContents controls = 1)
    ∧ ∀ url doc expectedPid,
        findControlFile url controls = some doc →
        (validateControlFile doc url).1 = true →
        layerOf doc = some "Layer 3" →
        extractPolicyIdFromUrl url = some expectedPid →
        policyIdOf doc ≠ expectedPid →
        processUrl controls url
          = (none, some (PolicyIdWarning.policyIdMismatch url expectedPid
              (policyIdOf doc))) := by
  have hempty : (extractGemaraUrls archContents).isEmpty = false := by
    simpa [List.isEmpty_iff] using hne
  refine ⟨?_, ?_, ?_⟩
  · cases herr : (runValidation (extractGemaraUrls archContents) controls).1 with
    | nil => simp [validateMain, hempty, herr]
    | cons e es => simp [validateMain, hempty, herr]
  · cases herr : (runValidation (extractGemaraUrls archContents) controls).1 with
    | nil => left; simp [validateMain, hempty, herr]
    | cons e es => right; simp [validateMain, hempty, herr]
  · intro url doc expectedPid hfind hvalid hlayer hpid hdiff
    rcases hvc : validateControlFile doc url with ⟨b, o⟩
    have hb : b = true := by rw [hvc] at hvalid; exact hvalid
    subst hb
    simp only [processUrl, hfind, hvc]
    simp [checkPolicyIdWarning, hlayer, hpid, hdiff]

/-- Witness for C6: a one-URL corpus with a valid Layer 3 artifact whose
metadata policy id `Q` differs from the URL's `P`. -/
theorem c6_classification_witness :
    (validateMain [sampleUrl] [sampleL3Doc] = 1 ↔
      (runValidation (extractGemaraUrls [sampleUrl]) [sampleL3Doc]).1 ≠ [])
    ∧ processUrl [sampleL3Doc] sampleUrl
        = (none, some (PolicyIdWarning.policyIdMismatch sampleUrl "P"
            (policyIdOf sampleL3Doc))) :=
  ⟨(c6_classification [sampleUrl] [sampleL3Doc] (by decide)).1,
   (c6_classification [sampleUrl] [sampleL3Doc] (by decide)).2.2 sampleUrl
     sampleL3Doc "P" (by decide) (by decide) (by decide) (by decide)
     (by decide)⟩

/-- Claim C8: an artifact located by the lookup (first document whose `$id`
equals the URL) can never fail the defensive `$id`-mismatch check of
structural validation. -/
theorem c8_lookup_id_check (url : String) (controls : List ControlDoc)
    (doc : ControlDoc) (h : findControlFile url controls = some doc) :
    ∀ e f, validateControlFile doc url
      ≠ (false, some (FileError.idMismatch e f)) := by
  have hid : doc.idField.getD "" = url := by
    have := List.find?_some h
    simpa [beq_iff_eq] using this
  intro e f hcontra
  simp only [validateControlFile] at hcontra
  rw [if_neg (by simp [hid])] at hcontra
  repeat' split at hcontra
  all_goals simp_all

/-- Witness for C8: the defensive check is passed by a concrete looked-up
document. -/
theorem c8_lookup_id_check_witness :
    validateControlFile sampleL3Doc sampleUrl
      ≠ (false, some (FileError.idMismatch sampleUrl "")) :=
  c8_lookup_id_check sampleUrl [sampleL3Doc] sampleL3Doc (by decide)
    sampleUrl ""

/-- Claim C10: for an artifact whose declared layer is absent or neither
`Layer 3` nor `Layer 2`, no layer-specific field is required: validation
succeeds exactly when the `$id` matches the URL and the always-required
fields (`control-id`, `metadata`, a non-empty `metadata.gemara` with
`requirement-id`, `source` and `applicability`) are present. -/
theorem c10_other_layer (doc : ControlDoc) (url : String)
    (h3 : ((doc.metadata.bind (·.gemara)).bind (·.layer)).getD "" ≠ "Layer 3")
    (h2 : ((doc.metadata.bind (·.gemara)).bind (·.layer)).getD "" ≠ "Layer 2") :
    validateControlFile doc url = (true, none) ↔
      (doc.idField.getD "" = url ∧ doc.hasControlId = true
        ∧ doc.metadata.isSome = true
        ∧ ∃ g, doc.metadata.bind (·.gemara) = some g
            ∧ g.hasRequirementId = true ∧ g.hasSource = true
            ∧ g.hasApplicability = true) := by
  cases hg : doc.metadata.bind (·.gemara) with
  | none =>
    simp only [validateControlFile, hg]
    split_ifs <;> simp
  | some g =>
    have hl3 : ¬ (g.layer.getD "" = "Layer 3") := by
      intro hh
      apply h3
      rw [hg]
      simpa using hh
    have hl2 : ¬ (g.layer.getD "" = "Layer 2") := by
      intro hh
      apply h2
      rw [hg]
      simpa using hh
    have hmeta : doc.metadata.isSome = true := by
      cases hm : doc.metadata with
      | none => rw [hm] at hg; simp at hg
      | some md => rfl
    simp only [validateControlFile, hg, hl3, hl2, if_false]
    split_ifs <;> simp_all

/-- Witness for C10: the equivalence evaluated on a document declaring
layer `Layer 1`. -/
theorem c10_other_layer_witness :
    validateControlFile sampleOtherDoc "u" = (true, none) ↔
      (sampleOtherDoc.idField.getD "" = "u"
        ∧ sampleOtherDoc.hasControlId = true
        ∧ sampleOtherDoc.metadata.isSome = true
        ∧ ∃ g, sampleOtherDoc.metadata.bind (·.gemara) = some g
            ∧ g.hasRequirementId = true ∧ g.hasSource = true
            ∧ g.hasApplicability = true) :=
  c10_other_layer sampleOtherDoc "u" (by decide) (by decide)

end Gemara
